import Mathlib

/-!
Verification of the exchange import pipeline (src/exchange/exchange.go)
against its natural-language specification.

The Go code is shallowly embedded: a spreadsheet cell is its string value,
a row is the list of its cell values, a sheet carries its name, rows and
MaxRow field, and a file is its list of sheets.  External collaborators
(the resource processor stages, the database transaction) are modelled as
explicit result parameters, since the pipeline treats them as opaque
fallible capabilities.
-/

namespace Exchange

/-- A cell of an xlsx row is identified with its string Value. A row is
the list of its cells. A sheet mirrors xlsx.Sheet: Name, Rows, MaxRow. -/
structure XSheet where
  name : String
  rows : List (List String)
  maxRow : Nat
deriving DecidableEq, Repr

/-- An xlsx file is its list of sheets, mirroring xlsx.File. -/
structure XFile where
  sheets : List XSheet
deriving DecidableEq, Repr

/-- Row filter of preprocessXLSXFile: a row with no cells is dropped
(the len check at line 115), and a row all of whose cells have empty
Value is dropped (the empty scan at lines 119-131). -/
def keepRow (row : List String) : Bool :=
  if row.length = 0 then false
  else !(row.all (fun c => c == ""))

/-- The per-sheet loop of preprocessXLSXFile (lines 107-139): sheets with
no rows are skipped; otherwise the surviving rows are kept in order, the
copied sheet gets MaxRow = number of surviving rows, and that number is
added to the running total. -/
def preprocessSheets : List XSheet → Nat × List XSheet
  | [] => (0, [])
  | sheet :: rest =>
    let r := preprocessSheets rest
    if sheet.rows.length = 0 then r
    else
      let nrows := sheet.rows.filter keepRow
      (nrows.length + r.1, { sheet with rows := nrows, maxRow := nrows.length } :: r.2)

/-- preprocessXLSXFile (lines 105-142): returns the total line count and
the cleaned copy of the file. -/
def preprocessXLSXFile (xf : XFile) : Nat × XFile :=
  let (t, ns) := preprocessSheets xf.sheets
  (t, ⟨ns⟩)

/-- Total number of rows, header rows included, across the sheets of a
file; used to characterise the totalLines accumulator. -/
def totalLinesOf (xf : XFile) : Nat :=
  (xf.sheets.map (fun s => s.rows.length)).sum

/-- The vmap built per row: a Go map[string]string, embedded as an
association list with unique keys. -/
abbrev VMap : Type := List (String × String)

/-- Go map read vmap[k] on a map[string]string: the zero value "" when
the key is absent. -/
def vlookup (m : VMap) (k : String) : String :=
  match m.find? (fun p => p.1 == k) with
  | some p => p.2
  | none => ""

/-- Go delete(vmap, k). -/
def vdelete (m : VMap) (k : String) : VMap :=
  m.filter (fun p => !(p.1 == k))

/-- Go map write vmap[k] = v: replaces the binding if present, else adds it. -/
def vinsert (m : VMap) (k v : String) : VMap :=
  if m.any (fun p => p.1 == k) then
    m.map (fun p => if p.1 == k then (k, v) else p)
  else m ++ [(k, v)]

mutual
/-- An entry of res.Metas, a resource.Metaor value. GetMetaValues only
acts on entries of the concrete type exchange.Meta (the type switch at
line 240); entries of any other dynamic type are `other` and skipped.
The ex constructor carries the Meta fields read or declared by the
exchange package: Label, MultiDelimiter, HasSequentialColumns, Resource. -/
inductive Metaer where
  | ex (label multiDelimiter : String) (hasSequentialColumns : Bool) (resource : NestedRes)
  | other

/-- The Resource field of a Meta: nil, a value of some foreign dynamic
type (the failed type switch at line 254), or an exchange.Resource with
its registered metas. -/
inductive NestedRes where
  | nil
  | foreign
  | res (metas : List Metaer)
end

/-- resource.MetaValue as populated by GetMetaValues: Name, the scalar
Value (nil unless assigned at line 247), and the nested MetaValues (nil
unless assigned at line 259). -/
inductive MetaValue where
  | mk (name : String) (value : Option String) (metaValues : Option (List MetaValue))

/-- GetMetaValues (lines 238-264), threading the mutated vmap: for each
exchange.Meta without a nested Resource, read vmap[label], delete the
key, and emit a scalar MetaValue; for one whose Resource is an
exchange.Resource, recurse on the same map and emit a nested MetaValue;
skip foreign metas and foreign nested resources. -/
def GetMetaValues : List Metaer → VMap → List MetaValue × VMap
  | [], vmap => ([], vmap)
  | .other :: rest, vmap => GetMetaValues rest vmap
  | .ex label _ _ .nil :: rest, vmap =>
    let r := GetMetaValues rest (vdelete vmap label)
    (.mk label (some (vlookup vmap label)) none :: r.1, r.2)
  | .ex _ _ _ .foreign :: rest, vmap => GetMetaValues rest vmap
  | .ex label _ _ (.res ms) :: rest, vmap =>
    let rn := GetMetaValues ms vmap
    let r := GetMetaValues rest rn.2
    (.mk label none (some rn.1) :: r.1, r.2)

/-- Errors of the resource processor and the database, with the
distinguished resource.ErrProcessorRecordNotFound value. -/
inductive PErr where
  | recordNotFound
  | err (msg : String)
deriving DecidableEq, Repr

/-- Results the external collaborator stages return for one row:
p.Initialize, p.Validate, p.Commit and db.Save, each independently
fallible. -/
structure ProcRes where
  initErr : Option PErr
  validateErrs : List PErr
  commitErrs : List PErr
  saveErr : Option PErr
deriving DecidableEq, Repr

/-- The stages a row can go through inside the goroutine body. -/
inductive Stage where
  | decode
  | init
  | validate
  | commit
  | save
deriving DecidableEq, Repr

/-- The stages run and errors recorded after a successful or tolerated
Initialize: the Validate, Commit and Save checks of lines 188-203. -/
def runRowAfterInit (p : ProcRes) : List PErr × List Stage :=
  if p.validateErrs.length > 0 then
    (p.validateErrs, [.decode, .init, .validate])
  else if p.commitErrs.length > 0 then
    (p.commitErrs, [.decode, .init, .validate, .commit])
  else
    match p.saveErr with
    | some e => ([e], [.decode, .init, .validate, .commit, .save])
    | none => ([], [.decode, .init, .validate, .commit, .save])

/-- The stage pipeline of the goroutine body (lines 180-203): decode
always runs; an Initialize error other than record-not-found stops the
row with that single error; record-not-found is tolerated and the row
continues; then Validate, Commit and Save each stop the row with their
errors. Returns the recorded errors and the stages that ran. -/
def runRow (p : ProcRes) : List PErr × List Stage :=
  match p.initErr with
  | some e =>
    if e = .recordNotFound then runRowAfterInit p
    else ([e], [.decode, .init])
  | none => runRowAfterInit p

/-- The vmap loop at lines 174-177, cell by cell: writing
vmap[headers[j].Value] = cell.Value panics (none) when j is outside the
header row. -/
def buildVMapAux (headers : List String) : Nat → List String → VMap → Option VMap
  | _, [], m => some m
  | j, c :: rest, m =>
    match headers[j]? with
    | none => none
    | some h => buildVMapAux headers (j + 1) rest (vinsert m h c)

/-- Builds the label-to-text map of one row from the header row, starting
from the empty map. -/
def buildVMap (headers cells : List String) : Option VMap :=
  buildVMapAux headers 0 cells []

/-- exchange.ImportStatus; LineNum is never assigned by the goroutine
body, so it stays at the zero value 0. -/
structure ImportStatus where
  lineNum : Nat
  sheet : String
  metaValues : List MetaValue
  errors : List PErr

/-- The goroutine body launched per data row (lines 164-204): build the
vmap, run GetMetaValues, then the processor stages. When the header
lookup panics the deferred function still sends the partially built
status before the panic propagates. -/
def rowWorker (metas : List Metaer) (p : ProcRes) (sheetName : String)
    (headers cells : List String) : ImportStatus :=
  match buildVMap headers cells with
  | none => { lineNum := 0, sheet := sheetName, metaValues := [], errors := [] }
  | some vmap =>
    { lineNum := 0, sheet := sheetName,
      metaValues := (GetMetaValues metas vmap).1,
      errors := (runRow p).1 }

/-- One submission of the row loop (lines 152-205): the sheet name, the
header row, the index within the data rows, and the row cells. -/
structure SubmittedRow where
  sheet : String
  headers : List String
  line : Nat
  cells : List String
deriving DecidableEq, Repr

/-- All rows the loop would submit when no abort fires: sheets with at
most one row are skipped (line 153), and each remaining sheet submits
its rows after the header, in order. -/
def submittedRowsAll (xf : XFile) : List SubmittedRow :=
  xf.sheets.flatMap (fun s =>
    if s.rows.length ≤ 1 then []
    else (s.rows.drop 1).enum.map (fun q => ⟨s.name, s.rows.headD [], q.1, q.2⟩))

/-- The rows actually submitted: the early-abort check at line 160 reads
the shared hasError flag at a point that depends on goroutine timing, so
the abort point is a parameter; abortAfter = some k means the check
fired before the submission with global index k. -/
def submittedRows (xf : XFile) (abortAfter : Option Nat) : List SubmittedRow :=
  match abortAfter with
  | none => submittedRowsAll xf
  | some k => (submittedRowsAll xf).take k

/-- The ImportStatus values sent on the iic channel: each launched
goroutine sends exactly one status in its deferred function (line 169),
whatever the outcome of its stages. The env parameter gives the external
stage results for each (sheet, line) pair. -/
def emittedStatuses (metas : List Metaer) (env : String → Nat → ProcRes)
    (xf : XFile) (abortAfter : Option Nat) : List ImportStatus :=
  (submittedRows xf abortAfter).map
    (fun r => rowWorker metas (env r.sheet r.line) r.sheet r.headers r.cells)

/-- Number of sheets with at least one row. -/
def nonEmptySheetCount (xf : XFile) : Nat :=
  (xf.sheets.filter (fun s => !s.rows.isEmpty)).length

/-- The error sent at line 216 after any failed run. -/
def genericBatchError : PErr := .err "meet error in job processing"

/-- The completion section of process (lines 210-226), as the list of
errors sent on fi.Error and whether true is sent on fi.Done: on a failed
run a rollback error is sent first when rollback itself fails, then
always the generic batch error; on a clean run a commit error is sent,
or Done fires. -/
def finishSignals (hasError : Bool) (rollbackErr commitErr : Option PErr) :
    List PErr × Bool :=
  if hasError then
    match rollbackErr with
    | some e => ([e, genericBatchError], false)
    | none => ([genericBatchError], false)
  else
    match commitErr with
    | some e => ([e], false)
    | none => ([], true)

/-- Which of the fallible steps of Import fail, and the parsed file when
all succeed. -/
structure ImportEnv where
  tempFileErr : Bool
  copyErr : Bool
  zipErr : Bool
  xlsxErr : Bool
  parsed : XFile
deriving DecidableEq, Repr

/-- Observable outcome of one Import call on the temporary file and the
background job. -/
structure ImportOutcome where
  err : Option PErr
  fileCreated : Bool
  fileClosed : Bool
  fileRemoved : Bool
  jobStarted : Bool
  totalLines : Nat
deriving DecidableEq, Repr

/-- Import (lines 74-103) with its defer discipline: the Close defer is
registered right after TempFile succeeds (line 79), but the Remove defer
only after io.Copy succeeds (line 84), so an early return from a copy
failure closes the file without removing it; every later return runs
both defers. -/
def importRun (env : ImportEnv) : ImportOutcome :=
  if env.tempFileErr then
    { err := some (.err "tempfile"), fileCreated := false, fileClosed := false,
      fileRemoved := false, jobStarted := false, totalLines := 0 }
  else if env.copyErr then
    { err := some (.err "copy"), fileCreated := true, fileClosed := true,
      fileRemoved := false, jobStarted := false, totalLines := 0 }
  else if env.zipErr then
    { err := some (.err "zip"), fileCreated := true, fileClosed := true,
      fileRemoved := true, jobStarted := false, totalLines := 0 }
  else if env.xlsxErr then
    { err := some (.err "xlsx"), fileCreated := true, fileClosed := true,
      fileRemoved := true, jobStarted := false, totalLines := 0 }
  else
    { err := none, fileCreated := true, fileClosed := true,
      fileRemoved := true, jobStarted := true,
      totalLines := (preprocessXLSXFile env.parsed).1 }

/-- State of the throttle channel discipline: tokens is the number of
values buffered in the throttle channel (capacity 20, line 147), running
the number of launched, unfinished goroutines. -/
structure PoolState where
  tokens : Nat
  running : Nat
deriving DecidableEq, Repr

/-- The three events touching the throttle channel. -/
inductive PoolLabel where
  | submit
  | abortToken
  | finish
deriving DecidableEq, Repr

/-- Steps of the throttle discipline: submit sends a token (blocking
while 20 are buffered) and launches a goroutine (lines 159-164);
abortToken is the send whose following hasError check jumps to rollback,
so no goroutine is launched; finish is the deferred receive that ends a
goroutine (lines 170-171). -/
inductive PoolStep : PoolState → PoolLabel → PoolState → Prop where
  | submit (t r : Nat) : t < 20 → PoolStep ⟨t, r⟩ .submit ⟨t + 1, r + 1⟩
  | abortToken (t r : Nat) : t < 20 → PoolStep ⟨t, r⟩ .abortToken ⟨t + 1, r⟩
  | finish (t r : Nat) : PoolStep ⟨t + 1, r + 1⟩ .finish ⟨t, r⟩

/-- States reachable from the start of process, where the throttle
channel is empty and no goroutine runs. -/
inductive PoolReachable : PoolState → Prop where
  | init : PoolReachable ⟨0, 0⟩
  | step {s t : PoolState} {l : PoolLabel} :
      PoolReachable s → PoolStep s l t → PoolReachable t

/-! ### Preprocessor lemmas -/

theorem preprocessSheets_fst (ss : List XSheet) :
    (preprocessSheets ss).1 = ((preprocessSheets ss).2.map (fun s => s.rows.length)).sum := by
  induction ss with
  | nil => simp [preprocessSheets]
  | cons sheet rest ih =>
    by_cases h : sheet.rows.length = 0
    · simpa [preprocessSheets, h] using ih
    · simp [preprocessSheets, h, ih]

theorem preprocessSheets_sheets (ss : List XSheet) :
    ∀ s ∈ (preprocessSheets ss).2,
      s.rows.filter keepRow = s.rows ∧ s.maxRow = s.rows.length := by
  induction ss with
  | nil => simp [preprocessSheets]
  | cons sheet rest ih =>
    by_cases h : sheet.rows.length = 0
    · simpa [preprocessSheets, h] using ih
    · intro s hs
      simp only [preprocessSheets, h, if_neg h] at hs
      rcases List.mem_cons.mp hs with hs | hs
      · subst hs
        exact ⟨List.filter_eq_self.mpr (fun r hr => List.of_mem_filter hr), rfl⟩
      · exact ih s hs

theorem preprocessSheets_fst_of_filtered (ts : List XSheet)
    (hf : ∀ s ∈ ts, s.rows.filter keepRow = s.rows) :
    (preprocessSheets ts).1 = (ts.map (fun s => s.rows.length)).sum := by
  induction ts with
  | nil => simp [preprocessSheets]
  | cons sheet rest ih =>
    have hrec := ih (fun s hs => hf s (List.mem_cons_of_mem _ hs))
    by_cases h : sheet.rows.length = 0
    · simp [preprocessSheets, h, hrec]
    · simp [preprocessSheets, h, hrec, hf sheet (List.mem_cons_self _ _)]

theorem preprocessSheets_stable (ts : List XSheet)
    (hf : ∀ s ∈ ts, s.rows.filter keepRow = s.rows ∧ s.maxRow = s.rows.length)
    (hne : ∀ s ∈ ts, s.rows ≠ []) :
    preprocessSheets ts = ((ts.map (fun s => s.rows.length)).sum, ts) := by
  induction ts with
  | nil => simp [preprocessSheets]
  | cons sheet rest ih =>
    have h1 := hf sheet (List.mem_cons_self _ _)
    have h2 := hne sheet (List.mem_cons_self _ _)
    have hrec := ih (fun s hs => hf s (List.mem_cons_of_mem _ hs))
      (fun s hs => hne s (List.mem_cons_of_mem _ hs))
    have hlen : ¬ sheet.rows.length = 0 := by
      simpa [List.length_eq_zero] using h2
    obtain ⟨n, rows, mr⟩ := sheet
    simp only [preprocessSheets, hrec, hlen, if_neg hlen]
    simp only at h1
    simp [h1.1, h1.2]

/-- C2: against the claim, preprocessXLSXFile counts the surviving header
row in totalLines: the example sheet keeps 2 rows and returns
totalLines = 2, not 1. -/
theorem C2_counterexample :
    preprocessXLSXFile ⟨[⟨"Sheet1", [["a", "b"], ["", "", ""], ["c", "d"]], 3⟩]⟩ =
      (2, ⟨[⟨"Sheet1", [["a", "b"], ["c", "d"]], 2⟩]⟩) ∧ (2 : Nat) ≠ 1 := by
  decide

/-- C2 amended: preprocessXLSXFile returns the total count of surviving
rows across all sheets, header rows included; on the example sheet it
keeps 2 rows and returns totalLines = 2. -/
theorem C2_amended :
    (∀ xf : XFile, (preprocessXLSXFile xf).1 = totalLinesOf (preprocessXLSXFile xf).2) ∧
    preprocessXLSXFile ⟨[⟨"Sheet1", [["a", "b"], ["", "", ""], ["c", "d"]], 3⟩]⟩ =
      (2, ⟨[⟨"Sheet1", [["a", "b"], ["c", "d"]], 2⟩]⟩) := by
  refine ⟨fun xf => ?_, by decide⟩
  simpa [preprocessXLSXFile, totalLinesOf] using preprocessSheets_fst xf.sheets

/-- C7: preprocessXLSXFile is not idempotent on structure: a sheet whose
rows are all empty survives the first pass as a sheet with no rows, and
the second pass removes that sheet. -/
theorem C7_counterexample :
    (preprocessXLSXFile (preprocessXLSXFile ⟨[⟨"S", [[""]], 1⟩]⟩).2).2 ≠
      (preprocessXLSXFile ⟨[⟨"S", [[""]], 1⟩]⟩).2 := by
  decide

/-- C7 amended: reapplying preprocessXLSXFile to its own output always
yields the same total line count, and yields an identical structure
provided no surviving sheet is left with zero rows (that is, no input
sheet consisted entirely of empty rows). -/
theorem C7_amended (xf : XFile) :
    (preprocessXLSXFile (preprocessXLSXFile xf).2).1 = (preprocessXLSXFile xf).1 ∧
    ((∀ s ∈ (preprocessXLSXFile xf).2.sheets, s.rows ≠ []) →
      preprocessXLSXFile (preprocessXLSXFile xf).2 = preprocessXLSXFile xf) := by
  constructor
  · have h1 := preprocessSheets_fst_of_filtered (preprocessSheets xf.sheets).2
      (fun s hs => (preprocessSheets_sheets xf.sheets s hs).1)
    have h2 := preprocessSheets_fst xf.sheets
    simpa [preprocessXLSXFile] using h1.trans h2.symm
  · intro hne
    have hst := preprocessSheets_stable (preprocessSheets xf.sheets).2
      (preprocessSheets_sheets xf.sheets)
      (by simpa [preprocessXLSXFile] using hne)
    have h2 := preprocessSheets_fst xf.sheets
    simp [preprocessXLSXFile] at hst ⊢
    rw [hst]
    exact ⟨h2.symm, rfl⟩

/-- C7 witness: a file whose only sheet keeps a non-empty row is a fixed
point of the preprocessor. -/
theorem C7_witness :
    preprocessXLSXFile (preprocessXLSXFile ⟨[⟨"S", [["a"]], 1⟩]⟩).2 =
      preprocessXLSXFile ⟨[⟨"S", [["a"]], 1⟩]⟩ :=
  (C7_amended ⟨[⟨"S", [["a"]], 1⟩]⟩).2 (by decide)

/-! ### Submission counting -/

theorem submittedRowsAll_length (xf : XFile) :
    (submittedRowsAll xf).length + nonEmptySheetCount xf = totalLinesOf xf := by
  obtain ⟨ss⟩ := xf
  induction ss with
  | nil => simp [submittedRowsAll, nonEmptySheetCount, totalLinesOf]
  | cons sheet rest ih =>
    simp only [submittedRowsAll, nonEmptySheetCount, totalLinesOf, List.flatMap_cons,
      List.length_append, List.map_cons, List.sum_cons, List.filter_cons] at ih ⊢
    by_cases h0 : sheet.rows.isEmpty
    · have hlen : sheet.rows.length = 0 := by
        simpa [List.isEmpty_iff_length_eq_zero] using h0
      simp only [h0, hlen, Bool.not_true, Bool.false_eq_true, if_false, Nat.zero_le,
        Nat.le_refl, if_pos, List.length_nil]
      simp only [Nat.zero_add]
      omega
    · have hlen0 : sheet.rows.length ≠ 0 := by
        simpa [List.isEmpty_iff_length_eq_zero] using h0
      by_cases h1 : sheet.rows.length ≤ 1
      · simp only [h0, h1, Bool.not_false, if_true, if_pos h1, List.length_nil,
          List.length_cons]
        omega
      · simp only [h0, h1, Bool.not_false, if_true, if_neg h1, if_false, ite_false,
          List.length_cons, List.length_map, List.enum_length, List.length_drop]
        omega

/-- C1: the emitted-status count does not reach TotalLines on a clean
run: a single sheet with a header and one data row has TotalLines = 2
after preprocessing, while a run with no failing row emits exactly one
ImportStatus. -/
theorem C1_counterexample :
    (preprocessXLSXFile ⟨[⟨"S", [["h"], ["a"]], 2⟩]⟩).1 = 2 ∧
    (emittedStatuses [] (fun _ _ => ⟨none, [], [], none⟩)
      (preprocessXLSXFile ⟨[⟨"S", [["h"], ["a"]], 2⟩]⟩).2 none).length = 1 ∧
    (1 : Nat) ≠ 2 := by
  refine ⟨by decide, ?_, by decide⟩
  show (List.map _ _).length = 1
  rw [List.length_map]
  decide

/-- C1 amended: every submitted row emits exactly one ImportStatus, the
emitted count never exceeds the TotalLines computed by the preprocessor,
and on a run with no abort the emitted count equals TotalLines minus the
number of surviving sheets that still have at least one row (each such
sheet contributes its header row to TotalLines but not to the
submissions). -/
theorem C1_amended (metas : List Metaer) (env : String → Nat → ProcRes)
    (raw : XFile) (a : Option Nat) :
    (emittedStatuses metas env (preprocessXLSXFile raw).2 a).length =
      (submittedRows (preprocessXLSXFile raw).2 a).length ∧
    (emittedStatuses metas env (preprocessXLSXFile raw).2 a).length ≤
      (preprocessXLSXFile raw).1 ∧
    (a = none →
      (emittedStatuses metas env (preprocessXLSXFile raw).2 a).length +
        nonEmptySheetCount (preprocessXLSXFile raw).2 = (preprocessXLSXFile raw).1) := by
  set xf := (preprocessXLSXFile raw).2 with hxf
  have htot : totalLinesOf xf = (preprocessXLSXFile raw).1 := by
    have := preprocessSheets_fst raw.sheets
    simp [hxf, preprocessXLSXFile, totalLinesOf]
    simpa [preprocessXLSXFile] using this.symm
  have hlen : (emittedStatuses metas env xf a).length = (submittedRows xf a).length :=
    List.length_map _ _
  have hall := submittedRowsAll_length xf
  refine ⟨hlen, ?_, ?_⟩
  · rw [hlen]
    have hle : (submittedRows xf a).length ≤ (submittedRowsAll xf).length := by
      cases a with
      | none => simp [submittedRows]
      | some k =>
        simp only [submittedRows, List.length_take]
        omega
    omega
  · intro ha
    subst ha
    rw [hlen]
    simpa [submittedRows, htot] using hall

/-- C1 witness: on a clean two-sheet file the emitted count plus the
surviving-sheet count equals TotalLines. -/
theorem C1_witness :
    (emittedStatuses [] (fun _ _ => ⟨none, [], [], none⟩)
      (preprocessXLSXFile ⟨[⟨"S", [["h"], ["a"], ["b"]], 3⟩]⟩).2 none).length +
      nonEmptySheetCount (preprocessXLSXFile ⟨[⟨"S", [["h"], ["a"], ["b"]], 3⟩]⟩).2 =
      (preprocessXLSXFile ⟨[⟨"S", [["h"], ["a"], ["b"]], 3⟩]⟩).1 :=
  (C1_amended [] (fun _ _ => ⟨none, [], [], none⟩) ⟨[⟨"S", [["h"], ["a"], ["b"]], 3⟩]⟩ none).2.2 rfl

/-! ### Completion signals -/

/-- C3: a run with a failed row whose rollback also fails sends two
values on the error channel, the rollback error followed by the generic
batch error, not exactly one. -/
theorem C3_counterexample :
    finishSignals true (some (.err "rollback failed")) none =
      ([.err "rollback failed", genericBatchError], false) ∧
    (finishSignals true (some (.err "rollback failed")) none).1.length = 2 ∧
    (2 : Nat) ≠ 1 := by
  decide

/-- C3 amended: exactly one of Done and the error path fires per run,
and the batch error is delivered exactly once except when rollback
itself fails, in which case the rollback error is sent first and the
generic batch error after it, two deliveries in total. -/
theorem C3_amended (h : Bool) (r c : Option PErr) :
    ((finishSignals h r c).2 = true ↔ (finishSignals h r c).1 = []) ∧
    ((finishSignals h r c).2 = true ↔ h = false ∧ c = none) ∧
    (h = true → (finishSignals h r c).1.length = if r.isSome then 2 else 1) ∧
    (h = false → (finishSignals h r c).1.length = if c.isSome then 1 else 0) := by
  cases h <;> cases r <;> cases c <;> simp [finishSignals, genericBatchError]

/-- C3 witness: a failed run with a clean rollback delivers exactly one
error. -/
theorem C3_witness : (finishSignals true none none).1.length = 1 := by
  have := (C3_amended true none none).2.2.1 rfl
  simpa using this

/-! ### Field Mapper -/

theorem vlookup_vdelete (m : VMap) (l : String) : vlookup (vdelete m l) l = "" := by
  have hnone : (vdelete m l).find? (fun p => p.1 == l) = none := by
    apply List.find?_eq_none.mpr
    intro x hx
    have hmem := List.of_mem_filter hx
    simp only [Bool.not_eq_true'] at hmem
    simp [hmem]
  simp [vlookup, hnone]

/-- C4: GetMetaValues stores a descriptor without a nested Resource as a
scalar read from the row mapping and deletes the consumed key, so a
later lookup of that key yields the empty zero value; a descriptor with
a nested exchange.Resource is resolved by a recursive invocation whose
partially consumed mapping is then passed to the remaining descriptors;
and the two-level example produces Ann under Name and a nested value set
with Oslo under City inside Address, consuming the whole row. -/
theorem C4_theorem :
    (GetMetaValues
      [.ex "Name" "" false .nil,
       .ex "Address" "" false (.res [.ex "City" "" false .nil])]
      [("Name", "Ann"), ("City", "Oslo")] =
      ([.mk "Name" (some "Ann") none,
        .mk "Address" none (some [.mk "City" (some "Oslo") none])], [])) ∧
    (∀ (l d : String) (q : Bool) (rest : List Metaer) (vmap : VMap),
      GetMetaValues (.ex l d q .nil :: rest) vmap =
        (.mk l (some (vlookup vmap l)) none ::
            (GetMetaValues rest (vdelete vmap l)).1,
          (GetMetaValues rest (vdelete vmap l)).2) ∧
      vlookup (vdelete vmap l) l = "") ∧
    (∀ (l d : String) (q : Bool) (ms rest : List Metaer) (vmap : VMap),
      GetMetaValues (.ex l d q (.res ms) :: rest) vmap =
        (.mk l none (some (GetMetaValues ms vmap).1) ::
            (GetMetaValues rest (GetMetaValues ms vmap).2).1,
          (GetMetaValues rest (GetMetaValues ms vmap).2).2)) := by
  refine ⟨by simp [GetMetaValues, vlookup, vdelete], ?_, ?_⟩
  · intro l d q rest vmap
    exact ⟨by simp [GetMetaValues], vlookup_vdelete vmap l⟩
  · intro l d q ms rest vmap
    simp [GetMetaValues]

/-- C8: the mapper does not split a cell on the declared delimiter and
does not collapse a contiguous run of same-named columns: a descriptor
with delimiter comma stores the raw text a,b as one scalar, and two
same-named descriptors yield two separate scalars, the second reading
the already-consumed key as the empty zero value. -/
theorem C8_counterexample :
    (GetMetaValues [.ex "Tags" "," true .nil] [("Tags", "a,b")] =
      ([.mk "Tags" (some "a,b") none], [])) ∧
    (GetMetaValues [.ex "Tag" "," true .nil, .ex "Tag" "," true .nil] [("Tag", "x")] =
      ([.mk "Tag" (some "x") none, .mk "Tag" (some "") none], [])) ∧
    ("a,b" : String) ≠ "a" := by
  refine ⟨?_, ?_, by decide⟩ <;> simp [GetMetaValues, vlookup, vdelete]

/-- C8 amended: the multi-value delimiter and the sequential-columns
flag are carried on the descriptor but never read by GetMetaValues: its
result is independent of both fields, and the cell text is stored
verbatim. -/
theorem C8_amended (l d1 d2 : String) (q1 q2 : Bool) (n : NestedRes)
    (rest : List Metaer) (vmap : VMap) :
    GetMetaValues (.ex l d1 q1 n :: rest) vmap =
      GetMetaValues (.ex l d2 q2 n :: rest) vmap := by
  cases n <;> simp [GetMetaValues]

/-! ### Row worker stages -/

/-- C5: a decode, validation or persistence failure ends the row at that
stage with exactly the errors of that stage recorded, later stages do
not run, validation keeps all its errors, and a record-not-found result
from Initialize is tolerated and the row continues unchanged. -/
theorem C5_theorem (p : ProcRes) :
    (∀ e : PErr, p.initErr = some e → e ≠ .recordNotFound →
      runRow p = ([e], [.decode, .init])) ∧
    (p.initErr = some .recordNotFound →
      runRow p = runRow { p with initErr := none }) ∧
    ((p.initErr = none ∨ p.initErr = some .recordNotFound) →
      p.validateErrs ≠ [] →
      runRow p = (p.validateErrs, [.decode, .init, .validate])) ∧
    ((p.initErr = none ∨ p.initErr = some .recordNotFound) →
      p.validateErrs = [] → p.commitErrs ≠ [] →
      runRow p = (p.commitErrs, [.decode, .init, .validate, .commit])) ∧
    (∀ e : PErr, (p.initErr = none ∨ p.initErr = some .recordNotFound) →
      p.validateErrs = [] → p.commitErrs = [] → p.saveErr = some e →
      runRow p = ([e], [.decode, .init, .validate, .commit, .save])) := by
  refine ⟨?_, ?_, ?_, ?_, ?_⟩
  · intro e he hne
    simp [runRow, he, hne]
  · intro he
    simp [runRow, he, runRowAfterInit]
  · intro hi hv
    have hlen : p.validateErrs.length > 0 := List.length_pos.mpr hv
    rcases hi with hi | hi <;> simp [runRow, hi, runRowAfterInit, hlen]
  · intro hi hv hc
    have hlen : p.commitErrs.length > 0 := List.length_pos.mpr hc
    rcases hi with hi | hi <;> simp [runRow, hi, runRowAfterInit, hv, hlen]
  · intro e hi hv hc hs
    rcases hi with hi | hi <;> simp [runRow, hi, runRowAfterInit, hv, hc, hs]

/-- C5 witness: a tolerated record-not-found followed by two validation
errors records both errors and stops before commit and save. -/
theorem C5_witness :
    runRow ⟨some .recordNotFound, [.err "bad", .err "worse"], [], none⟩ =
      ([.err "bad", .err "worse"], [.decode, .init, .validate]) :=
  (C5_theorem ⟨some .recordNotFound, [.err "bad", .err "worse"], [], none⟩).2.2.1
    (Or.inr rfl) (by decide)

/-! ### Import orchestrator -/

/-- C6: when copying the upload into the temporary file fails, the file
has been created but is not removed, because the Remove defer is only
registered after a successful copy. -/
theorem C6_counterexample :
    (importRun ⟨false, true, false, false, ⟨[]⟩⟩).fileCreated = true ∧
    (importRun ⟨false, true, false, false, ⟨[]⟩⟩).fileRemoved = false := by
  decide

/-- C6 amended: the temporary file is removed in every outcome reached
after the copy into temporary storage succeeds, including archive-open
and decode failures; when the copy itself fails the file is closed but
left behind. -/
theorem C6_amended (env : ImportEnv) :
    (env.tempFileErr = false → env.copyErr = false →
      (importRun env).fileRemoved = true) ∧
    (env.tempFileErr = false → env.copyErr = true →
      (importRun env).fileClosed = true ∧ (importRun env).fileRemoved = false) := by
  constructor
  · intro h1 h2
    simp only [importRun, h1, h2, Bool.false_eq_true, if_false]
    split_ifs <;> rfl
  · intro h1 h2
    simp [importRun, h1, h2]

/-- C6 witness: an archive-open failure still removes the temporary
file. -/
theorem C6_witness :
    (importRun ⟨false, false, true, false, ⟨[]⟩⟩).fileRemoved = true :=
  (C6_amended ⟨false, false, true, false, ⟨[]⟩⟩).1 rfl rfl

/-! ### Concurrency ceiling -/

theorem poolInvariant (s : PoolState) (h : PoolReachable s) :
    s.running ≤ s.tokens ∧ s.tokens ≤ 20 := by
  induction h with
  | init => exact ⟨Nat.le_refl 0, Nat.zero_le 20⟩
  | step hr hs ih =>
    cases hs with
    | submit t r hlt => simp only at ih ⊢; omega
    | abortToken t r hlt => simp only at ih ⊢; omega
    | finish t r => simp only at ih ⊢; omega

/-- C9: in every reachable state of the throttle discipline at most 20
goroutines are running, and a submission step is only enabled while
fewer than 20 tokens are buffered, so a submission that would exceed the
ceiling blocks until a running goroutine releases its token. -/
theorem C9_theorem :
    (∀ s : PoolState, PoolReachable s → s.running ≤ 20) ∧
    (∀ s t : PoolState, PoolStep s .submit t → s.tokens < 20) := by
  constructor
  · intro s h
    have := poolInvariant s h
    omega
  · intro s t h
    cases h
    assumption

/-- C9 witness: the state after one submission is reachable and within
the ceiling. -/
theorem C9_witness : (⟨1, 1⟩ : PoolState).running ≤ 20 :=
  C9_theorem.1 ⟨1, 1⟩
    (PoolReachable.step PoolReachable.init (PoolStep.submit 0 0 (by omega)))

/-! ### Header indexing precondition -/

theorem buildVMapAux_isSome (headers : List String) :
    ∀ (cells : List String) (j : Nat) (m : VMap),
      (buildVMapAux headers j cells m).isSome = true ↔
        (cells = [] ∨ j + cells.length ≤ headers.length)
  | [], j, m => by simp [buildVMapAux]
  | c :: rest, j, m => by
    cases hh : headers[j]? with
    | none =>
      have hj : headers.length ≤ j := by
        simpa using List.getElem?_eq_none_iff.mp hh
      simp only [buildVMapAux, hh, Option.isSome_none, Bool.false_eq_true, false_iff]
      push_neg
      refine ⟨by simp, ?_⟩
      simp only [List.length_cons]
      omega
    | some h =>
      have hj : j < headers.length := (List.getElem?_eq_some.mp hh).1
      have ih := buildVMapAux_isSome headers rest (j + 1) (vinsert m h c)
      have hstep : buildVMapAux headers j (c :: rest) m =
          buildVMapAux headers (j + 1) rest (vinsert m h c) := by
        simp [buildVMapAux, hh]
      rw [hstep, ih]
      simp only [List.length_cons]
      constructor
      · rintro (hc | hle)
        · subst hc
          right
          simp only [List.length_nil]
          omega
        · right
          omega
      · rintro (hc | hle)
        · exact absurd hc (List.cons_ne_nil c rest)
        · right
          omega

/-- C10: the vmap loop indexes the header row by cell position, so it
succeeds exactly when the data row has at most as many cells as the
header row, and panics (returns none) whenever the row is longer. -/
theorem C10_theorem (headers cells : List String) :
    ((buildVMap headers cells).isSome = true ↔ cells.length ≤ headers.length) ∧
    (headers.length < cells.length → buildVMap headers cells = none) := by
  have haux := buildVMapAux_isSome headers cells 0 []
  have h1 : (buildVMap headers cells).isSome = true ↔ cells.length ≤ headers.length := by
    rw [buildVMap, haux]
    constructor
    · rintro (h | h)
      · simp [h]
      · omega
    · intro h
      right
      omega
  refine ⟨h1, fun hlt => ?_⟩
  have h2 : ¬ (buildVMap headers cells).isSome = true := by
    rw [h1]
    omega
  cases hb : buildVMap headers cells with
  | none => rfl
  | some m =>
    rw [hb] at h2
    simp at h2

/-- C10 witness: a row no longer than the header builds its vmap, and a
longer row hits the out-of-bounds header index. -/
theorem C10_witness :
    (buildVMap ["h1", "h2"] ["a"]).isSome = true ∧
      buildVMap ["h1"] ["a", "b"] = none :=
  ⟨( C10_theorem ["h1", "h2"] ["a"]).1.mpr (by decide),
   ( C10_theorem ["h1"] ["a", "b"]).2 (by decide)⟩

end Exchange
